import Mathlib

/-!
Verification development for the reconciliation core in
`historical/common/dynamodb.py`.

The module is embedded shallowly:

* `AttrValue` is the typed DynamoDB wire attribute (the dictionaries with
  type tags such as `S`, `N`, `NULL`, `M`, `L` that boto3 produces);
* `Value` is the plain decoded value tree; numbers arrive as exact decimals
  (`Value.decimal`, modelled as `Rat`), which `replace_decimals` narrows to
  `Value.int` or `Value.float` (the float carries the exact decimal it
  approximates; the binary rounding of Python floats is not modelled, the
  claims only depend on which branch is taken and on values such as 5.5
  that floats represent exactly);
* dictionaries are association lists with unique keys (insertion order is
  preserved, as in Python dicts);
* the durable-store collaborator (a pynamodb model over a DynamoDB table
  keyed by `arn`/`eventTime`) is modelled as a list of revision bodies, and
  its `query(arn, eventTime__le=t, scan_index_forward=False, limit=1)` call
  as filter / sort-descending / take, the documented DynamoDB semantics;
  range-key comparison of the timestamp strings is byte-lexicographic,
  modelled by `lexLe` on the character lists;
* side effects (saves and log lines) are collected in a list of `Effect`s in
  the order the Python statements produce them, and a raised exception is an
  `Err` returned next to the effects that had already happened, so that the
  absence of partial writes on the error path is a provable statement rather
  than one true by construction.
-/

/-- Errors surfaced while processing one stream record: `keyError` is a
Python `KeyError` (missing dict key, e.g. the `ttl` field or `eventTime`),
`decodeError` is the deserializer rejecting an unsupported type tag, and
`typeError` models the store collaborator rejecting a range-key value that
is not a string. -/
inductive Err where
  | keyError
  | decodeError
  | typeError

/-- A typed DynamoDB attribute value as produced on the stream; the type
tags mirror the wire format handled by `boto3.dynamodb.types.TypeDeserializer`.
`unsupported` stands for any tag outside that set. -/
inductive AttrValue where
  | S (s : String)
  | N (q : Rat)
  | B (bs : List Nat)
  | BOOL (b : Bool)
  | NULL
  | SS (xs : List String)
  | NS (xs : List Rat)
  | BS (xs : List (List Nat))
  | L (xs : List AttrValue)
  | M (m : List (String × AttrValue))
  | unsupported (tag : String)

/-- A plain decoded value. `decimal` is an exact `decimal.Decimal`;
`int` and `float` are the narrowed forms produced by `replace_decimals`;
the three set constructors are the Python sets produced for `SS`/`NS`/`BS`. -/
inductive Value where
  | null
  | bool (b : Bool)
  | decimal (q : Rat)
  | int (n : Int)
  | float (q : Rat)
  | str (s : String)
  | binary (bs : List Nat)
  | strSet (xs : List String)
  | numSet (xs : List Rat)
  | binSet (xs : List (List Nat))
  | list (xs : List Value)
  | map (m : List (String × Value))

/-- A typed image (`NewImage` / `OldImage` / `Keys`): a dict of attribute
name to typed attribute value. -/
abbrev Image := List (String × AttrValue)

/-- A decoded revision body: a dict of attribute name to plain value.  Both
the candidate revision built from an image and the revisions stored in the
durable table are of this shape. -/
abbrev Body := List (String × Value)

mutual

/-- `TypeDeserializer.deserialize`: unwrap one typed attribute value into a
plain value; an unsupported type tag raises (the `DecodeError` of the spec). -/
def deserialize : AttrValue → Except Err Value
  | .S s => .ok (.str s)
  | .N q => .ok (.decimal q)
  | .B bs => .ok (.binary bs)
  | .BOOL b => .ok (.bool b)
  | .NULL => .ok .null
  | .SS xs => .ok (.strSet xs)
  | .NS xs => .ok (.numSet xs)
  | .BS xs => .ok (.binSet xs)
  | .L xs =>
    match deserializeList xs with
    | .error e => .error e
    | .ok vs => .ok (.list vs)
  | .M m =>
    match deserializeMap m with
    | .error e => .error e
    | .ok kvs => .ok (.map kvs)
  | .unsupported _ => .error .decodeError

/-- Elementwise deserialization of an `L` list, first failure propagating. -/
def deserializeList : List AttrValue → Except Err (List Value)
  | [] => .ok []
  | x :: xs =>
    match deserialize x with
    | .error e => .error e
    | .ok v =>
      match deserializeList xs with
      | .error e => .error e
      | .ok vs => .ok (v :: vs)

/-- Valuewise deserialization of an `M` map, first failure propagating. -/
def deserializeMap : List (String × AttrValue) → Except Err (List (String × Value))
  | [] => .ok []
  | (k, x) :: xs =>
    match deserialize x with
    | .error e => .error e
    | .ok v =>
      match deserializeMap xs with
      | .error e => .error e
      | .ok kvs => .ok ((k, v) :: kvs)

end

mutual

/-- `replace_decimals`: recursively replace `Decimal` objects with ints
(zero fractional part, `obj % 1 == 0`) or floats (otherwise); lists and
dicts are rewritten elementwise, everything else is returned unchanged. -/
def replace_decimals : Value → Value
  | .list xs => .list (replace_decimalsList xs)
  | .map m => .map (replace_decimalsMap m)
  | .decimal q => if q.den = 1 then .int q.num else .float q
  | v => v

/-- The `for i in range(len(obj))` loop of `replace_decimals` over a list. -/
def replace_decimalsList : List Value → List Value
  | [] => []
  | v :: vs => replace_decimals v :: replace_decimalsList vs

/-- The `for k, v in obj.items()` loop of `replace_decimals` over a dict. -/
def replace_decimalsMap : List (String × Value) → List (String × Value)
  | [] => []
  | (k, v) :: kvs => (k, replace_decimals v) :: replace_decimalsMap kvs

end

mutual

/-- `replace_nones`: recursively replace `None` with an empty dict; lists
and dicts are rewritten elementwise, everything else is returned unchanged. -/
def replace_nones : Value → Value
  | .list xs => .list (replace_nonesList xs)
  | .map m => .map (replace_nonesMap m)
  | .null => .map []
  | v => v

/-- The list loop of `replace_nones`. -/
def replace_nonesList : List Value → List Value
  | [] => []
  | v :: vs => replace_nones v :: replace_nonesList vs

/-- The dict loop of `replace_nones`. -/
def replace_nonesMap : List (String × Value) → List (String × Value)
  | [] => []
  | (k, v) :: kvs => (k, replace_nones v) :: replace_nonesMap kvs

end

mutual

/-- `true` when no `null` occurs anywhere in the tree (sets cannot contain
nulls on the wire, so only lists and dicts are descended into). -/
def noNulls : Value → Bool
  | .null => false
  | .list xs => noNullsList xs
  | .map m => noNullsMap m
  | _ => true

/-- `noNulls` over the elements of a list. -/
def noNullsList : List Value → Bool
  | [] => true
  | v :: vs => noNulls v && noNullsList vs

/-- `noNulls` over the values of a dict. -/
def noNullsMap : List (String × Value) → Bool
  | [] => true
  | (_, v) :: kvs => noNulls v && noNullsMap kvs

end

/-- `remove_current_specific_fields`: `del obj["ttl"]` -- removes the `ttl`
entry, raising `KeyError` when it is absent.  Polymorphic because the Python
function is applied to raw typed images. -/
def remove_current_specific_fields {α : Type} (obj : List (String × α)) :
    Except Err (List (String × α)) :=
  if (List.lookup "ttl" obj).isSome then
    .ok (obj.filter (fun kv => kv.1 ≠ "ttl"))
  else
    .error .keyError

/-- Python dict assignment `m[k] = v`: overwrite in place when the key
exists, append otherwise. -/
def setKey {α : Type} (k : String) (v : α) (m : List (String × α)) :
    List (String × α) :=
  if (List.lookup k m).isSome then
    m.map (fun kv => if kv.1 = k then (k, v) else kv)
  else
    m ++ [(k, v)]

/-- Python `del m[k]`: remove the entry, `KeyError` when absent. -/
def delKey {α : Type} (k : String) (m : List (String × α)) :
    Except Err (List (String × α)) :=
  if (List.lookup k m).isSome then
    .ok (m.filter (fun kv => kv.1 ≠ k))
  else
    .error .keyError

/-- The decode loop of `process_dynamodb_record` over a ttl-stripped image:
`data[item] = replace_decimals(deser.deserialize(new[item]))`. -/
def buildData : Image → Except Err Body
  | [] => .ok []
  | (k, av) :: rest =>
    match deserialize av with
    | .error e => .error e
    | .ok v =>
      match buildData rest with
      | .error e => .error e
      | .ok data => .ok ((k, replace_decimals v) :: data)

/-- The decode loop of `delete_record`:
`data[item] = deser.deserialize(old_image[item])` (no decimal narrowing). -/
def buildDataRaw : Image → Except Err Body
  | [] => .ok []
  | (k, av) :: rest =>
    match deserialize av with
    | .error e => .error e
    | .ok v =>
      match buildDataRaw rest with
      | .error e => .error e
      | .ok data => .ok ((k, v) :: data)

/-- Byte-lexicographic comparison of character lists, the order DynamoDB
applies to string range keys (the timestamps here are plain ASCII, where
code-point order and UTF-8 byte order agree). -/
def lexLe : List Char → List Char → Bool
  | [], _ => true
  | _ :: _, [] => false
  | a :: as, b :: bs =>
    if a.toNat < b.toNat then true
    else if b.toNat < a.toNat then false
    else lexLe as bs

/-- Lexicographic order on timestamp strings. -/
def timeLe (a b : String) : Bool := lexLe a.data b.data

/-- The `eventTime` range-key value of a stored revision body (stored
revisions always carry it as a string; `""` is a default that the query
filter never lets matter). -/
def getTimeD (r : Body) : String :=
  match List.lookup "eventTime" r with
  | some (.str t) => t
  | _ => ""

/-- Hash-key condition of the query: the item's `arn` attribute equals the
queried arn. -/
def arnIs (arn : String) (r : Body) : Bool :=
  match List.lookup "arn" r with
  | some (.str s) => s = arn
  | _ => false

/-- Range-key condition `eventTime__le=event_time`. -/
def hasTimeLE (r : Body) (event_time : String) : Bool :=
  match List.lookup "eventTime" r with
  | some (.str t) => timeLe t event_time
  | _ => false

/-- The full key condition of the `modify_record` query. -/
def matchesQuery (arn : String) (event_time : String) (r : Body) : Bool :=
  arnIs arn r && hasTimeLE r event_time

/-- The durable-store collaborator call
`durable_model.query(arn, eventTime__le=event_time, scan_index_forward=False, limit=limit)`:
revisions of that arn with `eventTime` at or before `event_time`, newest
first, truncated to `limit`. -/
def queryLE (store : List Body) (arn : String) (event_time : String)
    (limit : Nat) : List Body :=
  ((store.filter (matchesQuery arn event_time)).mergeSort
    (fun a b => timeLe (getTimeD b) (getTimeD a))).take limit

/-- One observable side effect of processing: a durable save or a log line. -/
inductive Effect where
  | save (body : Body)
  | logInfo (msg : String)
  | logDebug (msg : String)
  | logWarning (msg : String)

/-- The bodies saved to the durable table, in order. -/
def saveEffects (effs : List Effect) : List Body :=
  effs.filterMap (fun e =>
    match e with
    | .save b => some b
    | _ => none)

/-- How many warning lines were logged. -/
def warningCount (effs : List Effect) : Nat :=
  (effs.filter (fun e =>
    match e with
    | .logWarning _ => true
    | _ => false)).length

/-- The `userIdentity` block of a stream record (when the transport attaches
one it carries both fields). -/
structure UserIdentity where
  type : String
  principalId : String

/-- The `record["dynamodb"]` sub-dict: key attributes plus the images; a
missing image is an absent dict key. -/
structure DynamoPart where
  Keys : Image
  NewImage : Option Image
  OldImage : Option Image

/-- One DynamoDB stream record as handed to `process_dynamodb_record`. -/
structure StreamRecord where
  eventName : String
  dynamodb : DynamoPart
  userIdentity : Option UserIdentity

/-- `record["dynamodb"]["Keys"]["arn"]["S"]`: a `KeyError` when the `arn`
key is absent or not tagged `S`. -/
def getArn (record : StreamRecord) : Except Err String :=
  match List.lookup "arn" record.dynamodb.Keys with
  | some (.S s) => .ok s
  | _ => .error .keyError

/-- `modify_record`: query the latest prior revision at or before
`event_time`; when one exists, save the candidate exactly when the injected
diff function reports a difference; otherwise log the anomaly warning. -/
def modify_record (store : List Body) (current_revision : Body) (arn : String)
    (event_time : String) (diff_func : Body → Body → Bool) : List Effect :=
  match queryLE store arn event_time 1 with
  | latest_revision :: _ =>
    if diff_func latest_revision current_revision then
      [.save current_revision,
       .logDebug "Difference found saving new revision to durable table."]
    else []
  | [] =>
    [.logWarning ("Got modify event but no current revision found. Arn: " ++ arn)]

/-- `delete_record`: deserialize the (already ttl-stripped) old image, blank
out `configuration`, drop the transported `eventTime` (the store assigns its
own deletion timestamp), and save the tombstone. -/
def delete_record (old_image : Image) : Except Err (List Effect) :=
  match buildDataRaw old_image with
  | .error e => .error e
  | .ok data =>
    let data := setKey "configuration" (.map []) data
    match delKey "eventTime" data with
    | .error e => .error e
    | .ok data =>
      .ok [.save data, .logDebug "Adding deletion marker."]

/-- `process_dynamodb_record`: the per-event reconciliation engine.  Returns
the effects produced, in statement order, together with the exception that
aborted processing, if any; effects that happened before the exception are
kept, so partial-write freedom is provable rather than built in. -/
def process_dynamodb_record (record : StreamRecord) (store : List Body)
    (diff_func : Body → Body → Bool) : List Effect × Option Err :=
  let eff0 : List Effect := [.logInfo "Processing stream record..."]
  match getArn record with
  | .error e => (eff0, some e)
  | .ok arn =>
    if record.eventName = "INSERT" ∨ record.eventName = "MODIFY" then
      match record.dynamodb.NewImage with
      | none => (eff0, some .keyError)
      | some img =>
        match remove_current_specific_fields img with
        | .error e => (eff0, some e)
        | .ok new =>
          match buildData new with
          | .error e => (eff0, some e)
          | .ok data =>
            if record.eventName = "INSERT" then
              (eff0 ++ [.save data,
                        .logDebug "Saving new revision to durable table."], none)
            else
              match List.lookup "eventTime" data with
              | some (.str t) =>
                (eff0 ++ modify_record store data arn t diff_func, none)
              | some _ => (eff0, some .typeError)
              | none => (eff0, some .keyError)
    else if record.eventName = "REMOVE" then
      match record.userIdentity with
      | some uid =>
        if uid.type = "Service" then
          if uid.principalId = "dynamodb.amazonaws.com" then
            match record.dynamodb.OldImage with
            | none => (eff0, some .keyError)
            | some oimg =>
              match remove_current_specific_fields oimg with
              | .error e => (eff0, some e)
              | .ok old_image =>
                match delete_record old_image with
                | .error e => (eff0, some e)
                | .ok effs => (eff0 ++ effs, none)
          else (eff0, none)
        else (eff0, none)
      | none => (eff0, none)
    else (eff0, none)

/-! ## Concrete fixtures used to instantiate the theorems -/

/-- A diff policy that always reports a difference. -/
def diffAlways : Body → Body → Bool := fun _ _ => true

/-- A diff policy that never reports a difference. -/
def diffNever : Body → Body → Bool := fun _ _ => false

/-- Key attributes shared by the fixture records. -/
def wKeys : Image := [("arn", .S "arn:aws:ec2:sg-1")]

/-- A well-formed new image: arn, event time, and the ttl field. -/
def wImage : Image :=
  [("arn", .S "arn:aws:ec2:sg-1"), ("eventTime", .S "2017-01-02"), ("ttl", .N 99)]

/-- An INSERT record carrying `wImage`. -/
def wInsertRecord : StreamRecord :=
  { eventName := "INSERT"
    dynamodb := { Keys := wKeys, NewImage := some wImage, OldImage := none }
    userIdentity := none }

/-- A MODIFY record carrying `wImage`. -/
def wModifyRecord : StreamRecord :=
  { wInsertRecord with eventName := "MODIFY" }

/-- `wImage` with the `ttl` field stripped. -/
def wStripped : Image :=
  [("arn", .S "arn:aws:ec2:sg-1"), ("eventTime", .S "2017-01-02")]

/-- The candidate body that decoding `wImage` (ttl stripped) produces. -/
def wData : Body :=
  [("arn", .str "arn:aws:ec2:sg-1"), ("eventTime", .str "2017-01-02")]

/-- An older stored revision of the same resource. -/
def wRev : Body :=
  [("arn", .str "arn:aws:ec2:sg-1"), ("eventTime", .str "2017-01-01")]

/-- The old image of a deleted record. -/
def wRemoveImage : Image :=
  [("arn", .S "arn:aws:ec2:sg-1"), ("eventTime", .S "2017-01-02"), ("ttl", .N 99),
   ("configuration", .M [("GroupId", .S "sg-1")])]

/-- `wRemoveImage` with the `ttl` field stripped. -/
def wRemoveOld : Image :=
  [("arn", .S "arn:aws:ec2:sg-1"), ("eventTime", .S "2017-01-02"),
   ("configuration", .M [("GroupId", .S "sg-1")])]

/-- The body that deserializing `wRemoveOld` produces. -/
def wRemoveData0 : Body :=
  [("arn", .str "arn:aws:ec2:sg-1"), ("eventTime", .str "2017-01-02"),
   ("configuration", .map [("GroupId", .str "sg-1")])]

/-- A REMOVE record originated by the DynamoDB TTL service. -/
def wRemoveRecord : StreamRecord :=
  { eventName := "REMOVE"
    dynamodb := { Keys := wKeys, NewImage := none, OldImage := some wRemoveImage }
    userIdentity := some { type := "Service", principalId := "dynamodb.amazonaws.com" } }

/-- A REMOVE record originated by an ordinary user identity. -/
def wRemoveRecordUser : StreamRecord :=
  { wRemoveRecord with userIdentity := some { type := "IAMUser", principalId := "alice" } }

/-- A record with an event name outside INSERT / MODIFY / REMOVE. -/
def wUnknownRecord : StreamRecord :=
  { eventName := "UNKNOWN"
    dynamodb := { Keys := wKeys, NewImage := none, OldImage := none }
    userIdentity := none }

/-- Like `wUnknownRecord` but with no `arn` key attribute at all. -/
def wUnknownRecordNoArn : StreamRecord :=
  { wUnknownRecord with dynamodb := { Keys := [], NewImage := none, OldImage := none } }

/-- An INSERT record whose image carries a NULL-tagged field. -/
def wNullRecord : StreamRecord :=
  { eventName := "INSERT"
    dynamodb := { Keys := wKeys
                  NewImage := some [("arn", .S "arn:aws:ec2:sg-1"), ("ttl", .N 1),
                                    ("nested", .NULL)]
                  OldImage := none }
    userIdentity := none }

/-- An INSERT record whose image is missing the expected `ttl` field. -/
def wNoTtlRecord : StreamRecord :=
  { eventName := "INSERT"
    dynamodb := { Keys := wKeys
                  NewImage := some [("arn", .S "arn:aws:ec2:sg-1")]
                  OldImage := none }
    userIdentity := none }

/-! ## Order properties of the range-key comparison -/

theorem lexLe_refl (x : List Char) : lexLe x x = true := by
  induction x with
  | nil => rfl
  | cons a as ih => simp [lexLe, ih]

theorem lexLe_total (x y : List Char) : lexLe x y || lexLe y x := by
  induction x generalizing y with
  | nil => simp [lexLe]
  | cons a as ih =>
    cases y with
    | nil => simp [lexLe]
    | cons b bs =>
      by_cases h1 : a.toNat < b.toNat
      · simp [lexLe, h1, Nat.not_lt.2 (Nat.le_of_lt h1)]
      · by_cases h2 : b.toNat < a.toNat
        · simp [lexLe, h1, h2]
        · simp [lexLe, h1, h2, ih bs]

theorem lexLe_trans (x y z : List Char) (h1 : lexLe x y) (h2 : lexLe y z) :
    lexLe x z := by
  induction x generalizing y z with
  | nil => simp [lexLe]
  | cons a as ih =>
    cases y with
    | nil => simp [lexLe] at h1
    | cons b bs =>
      cases z with
      | nil => simp [lexLe] at h2
      | cons c cs =>
        simp only [lexLe] at h1 h2 ⊢
        split at h1 <;> split at h2 <;> rename_i hab hbc
        · simp [Nat.lt_trans hab hbc]
        · split at h2
          · simp at h2
          · rename_i hcb
            have hac : a.toNat < c.toNat := by omega
            simp [hac]
        · split at h1
          · simp at h1
          · rename_i hba
            have hac : a.toNat < c.toNat := by omega
            simp [hac]
        · split at h1
          · simp at h1
          · split at h2
            · simp at h2
            · rename_i hba hcb
              have hac : ¬ a.toNat < c.toNat := by omega
              have hca : ¬ c.toNat < a.toNat := by omega
              simp [hac, hca, ih bs cs h1 h2]

theorem timeLe_refl (t : String) : timeLe t t = true := lexLe_refl t.data

theorem timeLe_total (a b : String) : timeLe a b || timeLe b a :=
  lexLe_total a.data b.data

theorem timeLe_trans (a b c : String) (h1 : timeLe a b) (h2 : timeLe b c) :
    timeLe a c := lexLe_trans a.data b.data c.data h1 h2

/-! ## Association-list lemmas (Python dict operations) -/

theorem lookup_cons_eq {α : Type} (a k : String) (b : α) (es : List (String × α)) :
    List.lookup a ((k, b) :: es) = if a = k then some b else List.lookup a es := by
  by_cases h : a = k
  · simp [List.lookup, h]
  · have hb : (a == k) = false := beq_eq_false_iff_ne.mpr h
    simp [List.lookup_cons, hb, h]

theorem lookup_filter_self {α : Type} (k : String) (m : List (String × α)) :
    List.lookup k (m.filter (fun kv => kv.1 ≠ k)) = none := by
  induction m with
  | nil => rfl
  | cons kv m ih =>
    obtain ⟨k', v⟩ := kv
    by_cases h : k' = k
    · simp only [List.filter_cons, h, decide_not, decide_eq_true_eq]
      simpa using ih
    · simp only [List.filter_cons, decide_not]
      rw [if_pos (by simpa using h)]
      rw [lookup_cons_eq, if_neg (Ne.symm h)]
      simpa [decide_not] using ih

theorem lookup_filter_ne {α : Type} (k k' : String) (m : List (String × α))
    (h : k ≠ k') :
    List.lookup k (m.filter (fun kv => kv.1 ≠ k')) = List.lookup k m := by
  induction m with
  | nil => rfl
  | cons kv m ih =>
    obtain ⟨k0, v⟩ := kv
    by_cases h0 : k0 = k'
    · have hk : k ≠ k0 := fun hh => h (hh ▸ h0)
      simp only [List.filter_cons, decide_not]
      rw [if_neg (by simpa using h0)]
      rw [lookup_cons_eq, if_neg hk]
      simpa [decide_not] using ih
    · simp only [List.filter_cons, decide_not]
      rw [if_pos (by simpa using h0)]
      rw [lookup_cons_eq, lookup_cons_eq]
      by_cases hk : k = k0
      · simp [hk]
      · rw [if_neg hk, if_neg hk]
        simpa [decide_not] using ih

theorem lookup_map_setEntry {α : Type} (k : String) (v : α)
    (m : List (String × α)) (hsome : (List.lookup k m).isSome) :
    List.lookup k (m.map (fun kv => if kv.1 = k then (k, v) else kv)) = some v := by
  induction m with
  | nil => simp at hsome
  | cons kv m ih =>
    obtain ⟨k0, w⟩ := kv
    by_cases h : k0 = k
    · simp only [List.map_cons, if_pos h]
      rw [lookup_cons_eq, if_pos rfl]
    · simp only [List.map_cons, if_neg h]
      rw [lookup_cons_eq, if_neg (Ne.symm h)]
      apply ih
      rw [lookup_cons_eq, if_neg (Ne.symm h)] at hsome
      exact hsome

theorem lookup_append_single {α : Type} (k : String) (v : α)
    (m : List (String × α)) (hnone : List.lookup k m = none) :
    List.lookup k (m ++ [(k, v)]) = some v := by
  induction m with
  | nil => simp [lookup_cons_eq]
  | cons kv m ih =>
    obtain ⟨k0, w⟩ := kv
    rw [lookup_cons_eq] at hnone
    by_cases h : k = k0
    · rw [if_pos h] at hnone
      exact absurd hnone (by simp)
    · rw [if_neg h] at hnone
      rw [List.cons_append, lookup_cons_eq, if_neg h]
      exact ih hnone

theorem lookup_setKey_self {α : Type} (k : String) (v : α)
    (m : List (String × α)) : List.lookup k (setKey k v m) = some v := by
  unfold setKey
  split
  · exact lookup_map_setEntry k v m (by assumption)
  · rename_i hnone
    exact lookup_append_single k v m (by
      cases h : List.lookup k m
      · rfl
      · exact absurd (by simp [h]) hnone)

theorem lookup_setKey_ne {α : Type} (k k' : String) (v : α)
    (m : List (String × α)) (h : k ≠ k') :
    List.lookup k (setKey k' v m) = List.lookup k m := by
  unfold setKey
  split
  · rename_i hs
    clear hs
    induction m with
    | nil => rfl
    | cons kv m ih =>
      obtain ⟨k0, w⟩ := kv
      by_cases h0 : k0 = k'
      · have hk : k ≠ k0 := fun hh => h (hh ▸ h0)
        simp only [List.map_cons, if_pos h0]
        rw [lookup_cons_eq, if_neg h, lookup_cons_eq, if_neg hk]
        exact ih
      · simp only [List.map_cons, if_neg h0]
        rw [lookup_cons_eq, lookup_cons_eq]
        by_cases hk : k = k0
        · simp [hk]
        · rw [if_neg hk, if_neg hk]
          exact ih
  · rename_i hs
    clear hs
    induction m with
    | nil => simp [lookup_cons_eq, h]
    | cons kv m ih =>
      obtain ⟨k0, w⟩ := kv
      rw [List.cons_append, lookup_cons_eq, lookup_cons_eq]
      by_cases hk : k = k0
      · simp [hk]
      · rw [if_neg hk, if_neg hk]
        exact ih

/-! ## Resolution property of the latest-revision query -/

theorem queryLE_resolves (store : List Body) (arn t : String)
    (h : store.filter (matchesQuery arn t) ≠ []) :
    ∃ latest, queryLE store arn t 1 = [latest]
      ∧ latest ∈ store.filter (matchesQuery arn t)
      ∧ ∀ r ∈ store.filter (matchesQuery arn t),
          timeLe (getTimeD r) (getTimeD latest) := by
  have htrans : ∀ a b c : Body,
      (timeLe (getTimeD b) (getTimeD a)) = true →
      (timeLe (getTimeD c) (getTimeD b)) = true →
      (timeLe (getTimeD c) (getTimeD a)) = true :=
    fun a b c h1 h2 => timeLe_trans (getTimeD c) (getTimeD b) (getTimeD a) h2 h1
  have htotal : ∀ a b : Body,
      (timeLe (getTimeD b) (getTimeD a) || timeLe (getTimeD a) (getTimeD b)) = true :=
    fun a b => timeLe_total (getTimeD b) (getTimeD a)
  have hsorted := List.sorted_mergeSort htrans htotal (store.filter (matchesQuery arn t))
  have hperm := List.mergeSort_perm (store.filter (matchesQuery arn t))
    (fun a b => timeLe (getTimeD b) (getTimeD a))
  cases hms : (store.filter (matchesQuery arn t)).mergeSort
      (fun a b => timeLe (getTimeD b) (getTimeD a)) with
  | nil =>
    exact absurd (List.Perm.nil_eq (hms ▸ hperm)).symm h
  | cons latest rest =>
    refine ⟨latest, ?_, ?_, ?_⟩
    · unfold queryLE
      rw [hms]
      rfl
    · exact List.mem_mergeSort.mp (by rw [hms]; exact List.mem_cons_self latest rest)
    · intro r hr
      have hmem : r ∈ latest :: rest := by
        rw [← hms]
        exact List.mem_mergeSort.mpr hr
      rcases List.mem_cons.mp hmem with rfl | hr'
      · exact timeLe_refl _
      · rw [hms] at hsorted
        exact (List.pairwise_cons.mp hsorted).1 r hr'

/-! ## Idempotence of the two normalization passes -/

mutual

theorem replace_decimals_idem (v : Value) :
    replace_decimals (replace_decimals v) = replace_decimals v := by
  cases v with
  | list xs => simp only [replace_decimals, replace_decimalsList_idem xs]
  | map m => simp only [replace_decimals, replace_decimalsMap_idem m]
  | decimal q => by_cases h : q.den = 1 <;> simp [replace_decimals, h]
  | null => rfl
  | bool b => rfl
  | int n => rfl
  | float q => rfl
  | str s => rfl
  | binary bs => rfl
  | strSet xs => rfl
  | numSet xs => rfl
  | binSet xs => rfl

theorem replace_decimalsList_idem (xs : List Value) :
    replace_decimalsList (replace_decimalsList xs) = replace_decimalsList xs := by
  cases xs with
  | nil => rfl
  | cons v vs =>
    simp only [replace_decimalsList, replace_decimals_idem v,
      replace_decimalsList_idem vs]

theorem replace_decimalsMap_idem (m : List (String × Value)) :
    replace_decimalsMap (replace_decimalsMap m) = replace_decimalsMap m := by
  cases m with
  | nil => rfl
  | cons kv kvs =>
    obtain ⟨k, v⟩ := kv
    simp only [replace_decimalsMap, replace_decimals_idem v,
      replace_decimalsMap_idem kvs]

end

mutual

theorem replace_nones_idem (v : Value) :
    replace_nones (replace_nones v) = replace_nones v := by
  cases v with
  | list xs => simp only [replace_nones, replace_nonesList_idem xs]
  | map m => simp only [replace_nones, replace_nonesMap_idem m]
  | null => rfl
  | bool b => rfl
  | decimal q => rfl
  | int n => rfl
  | float q => rfl
  | str s => rfl
  | binary bs => rfl
  | strSet xs => rfl
  | numSet xs => rfl
  | binSet xs => rfl

theorem replace_nonesList_idem (xs : List Value) :
    replace_nonesList (replace_nonesList xs) = replace_nonesList xs := by
  cases xs with
  | nil => rfl
  | cons v vs =>
    simp only [replace_nonesList, replace_nones_idem v, replace_nonesList_idem vs]

theorem replace_nonesMap_idem (m : List (String × Value)) :
    replace_nonesMap (replace_nonesMap m) = replace_nonesMap m := by
  cases m with
  | nil => rfl
  | cons kv kvs =>
    obtain ⟨k, v⟩ := kv
    simp only [replace_nonesMap, replace_nones_idem v, replace_nonesMap_idem kvs]

end

mutual

theorem noNulls_replace_nones (v : Value) : noNulls (replace_nones v) = true := by
  cases v with
  | list xs => simpa only [replace_nones, noNulls] using noNullsList_replace_nones xs
  | map m => simpa only [replace_nones, noNulls] using noNullsMap_replace_nones m
  | null => rfl
  | bool b => rfl
  | decimal q => rfl
  | int n => rfl
  | float q => rfl
  | str s => rfl
  | binary bs => rfl
  | strSet xs => rfl
  | numSet xs => rfl
  | binSet xs => rfl

theorem noNullsList_replace_nones (xs : List Value) :
    noNullsList (replace_nonesList xs) = true := by
  cases xs with
  | nil => rfl
  | cons v vs =>
    simp only [replace_nonesList, noNullsList, noNulls_replace_nones v,
      noNullsList_replace_nones vs, Bool.and_self]

theorem noNullsMap_replace_nones (m : List (String × Value)) :
    noNullsMap (replace_nonesMap m) = true := by
  cases m with
  | nil => rfl
  | cons kv kvs =>
    obtain ⟨k, v⟩ := kv
    simp only [replace_nonesMap, noNullsMap, noNulls_replace_nones v,
      noNullsMap_replace_nones kvs, Bool.and_self]

end

/-! ## Evaluation lemmas for the per-event paths of the engine -/

theorem process_modify_eq (record : StreamRecord) (store : List Body)
    (diff_func : Body → Body → Bool) (arn : String) (img new : Image)
    (data : Body) (t : String)
    (hname : record.eventName = "MODIFY")
    (harn : getArn record = .ok arn)
    (himg : record.dynamodb.NewImage = some img)
    (hstrip : remove_current_specific_fields img = .ok new)
    (hdata : buildData new = .ok data)
    (ht : List.lookup "eventTime" data = some (.str t)) :
    process_dynamodb_record record store diff_func =
      ([.logInfo "Processing stream record..."] ++
         modify_record store data arn t diff_func, none) := by
  unfold process_dynamodb_record
  simp only [harn, himg, hstrip, hdata, hname, ht]
  simp

theorem process_insert_eq (record : StreamRecord) (store : List Body)
    (diff_func : Body → Body → Bool) (arn : String) (img new : Image)
    (data : Body)
    (hname : record.eventName = "INSERT")
    (harn : getArn record = .ok arn)
    (himg : record.dynamodb.NewImage = some img)
    (hstrip : remove_current_specific_fields img = .ok new)
    (hdata : buildData new = .ok data) :
    process_dynamodb_record record store diff_func =
      ([.logInfo "Processing stream record...", .save data,
        .logDebug "Saving new revision to durable table."], none) := by
  unfold process_dynamodb_record
  simp only [harn, himg, hstrip, hdata, hname]
  simp

theorem process_remove_ttl_eq (record : StreamRecord) (store : List Body)
    (diff_func : Body → Body → Bool) (arn : String) (uid : UserIdentity)
    (oimg old : Image) (data0 : Body)
    (hname : record.eventName = "REMOVE")
    (harn : getArn record = .ok arn)
    (huid : record.userIdentity = some uid)
    (htype : uid.type = "Service")
    (hpid : uid.principalId = "dynamodb.amazonaws.com")
    (hoimg : record.dynamodb.OldImage = some oimg)
    (hstrip : remove_current_specific_fields oimg = .ok old)
    (hbuild : buildDataRaw old = .ok data0)
    (hevt : (List.lookup "eventTime" (setKey "configuration" (.map []) data0)).isSome) :
    process_dynamodb_record record store diff_func =
      ([.logInfo "Processing stream record...",
        .save ((setKey "configuration" (.map []) data0).filter
          (fun kv => kv.1 ≠ "eventTime")),
        .logDebug "Adding deletion marker."], none) := by
  have hdel : delete_record old =
      .ok [.save ((setKey "configuration" (.map []) data0).filter
             (fun kv => kv.1 ≠ "eventTime")),
           .logDebug "Adding deletion marker."] := by
    unfold delete_record delKey
    simp only [hbuild, hevt, if_pos]
  unfold process_dynamodb_record
  simp only [harn, hname, huid, htype, hpid, hoimg, hstrip, hdel]
  simp

theorem process_remove_other_eq (record : StreamRecord) (store : List Body)
    (diff_func : Body → Body → Bool) (arn : String)
    (hname : record.eventName = "REMOVE")
    (harn : getArn record = .ok arn)
    (hnq : ∀ uid, record.userIdentity = some uid →
      ¬(uid.type = "Service" ∧ uid.principalId = "dynamodb.amazonaws.com")) :
    process_dynamodb_record record store diff_func =
      ([.logInfo "Processing stream record..."], none) := by
  unfold process_dynamodb_record
  simp only [harn, hname]
  cases huid : record.userIdentity with
  | none => simp
  | some uid =>
    have := hnq uid huid
    by_cases htype : uid.type = "Service"
    · have hpid : uid.principalId ≠ "dynamodb.amazonaws.com" := by
        intro hp
        exact this ⟨htype, hp⟩
      simp [htype, hpid]
    · simp [htype]

theorem process_unknown_eq (record : StreamRecord) (store : List Body)
    (diff_func : Body → Body → Bool) (arn : String)
    (h1 : record.eventName ≠ "INSERT")
    (h2 : record.eventName ≠ "MODIFY")
    (h3 : record.eventName ≠ "REMOVE")
    (harn : getArn record = .ok arn) :
    process_dynamodb_record record store diff_func =
      ([.logInfo "Processing stream record..."], none) := by
  unfold process_dynamodb_record
  simp [harn, h1, h2, h3]

theorem process_no_arn_eq (record : StreamRecord) (store : List Body)
    (diff_func : Body → Body → Bool) (e : Err)
    (harn : getArn record = .error e) :
    process_dynamodb_record record store diff_func =
      ([.logInfo "Processing stream record..."], some e) := by
  unfold process_dynamodb_record
  simp [harn]

theorem process_error_effects (record : StreamRecord) (store : List Body)
    (diff_func : Body → Body → Bool) :
    (process_dynamodb_record record store diff_func).2 = none ∨
    (process_dynamodb_record record store diff_func).1 =
      [.logInfo "Processing stream record..."] := by
  simp only [process_dynamodb_record]
  repeat' first
  | (left; rfl)
  | (right; rfl)
  | split

/-! ## Claims -/

/-- C1: for every MODIFY event whose resource has at least one prior durable
revision with eventTime at or before the candidate's eventTime, processing
resolves the most recent such revision (the query filters `eventTime ≤ t`,
orders descending and takes one element, so the resolved revision is maximal
among the matching ones), and then performs exactly one save of the candidate
when the injected diff policy reports a difference between that latest
revision and the candidate, and zero saves when it reports none. -/
theorem claim_C1_modify_resolves_latest_and_saves_iff_diff
    (record : StreamRecord) (store : List Body) (diff_func : Body → Body → Bool)
    (arn : String) (img new : Image) (data : Body) (t : String)
    (hname : record.eventName = "MODIFY")
    (harn : getArn record = .ok arn)
    (himg : record.dynamodb.NewImage = some img)
    (hstrip : remove_current_specific_fields img = .ok new)
    (hdata : buildData new = .ok data)
    (ht : List.lookup "eventTime" data = some (.str t))
    (hprior : store.filter (matchesQuery arn t) ≠ []) :
    ∃ latest,
      queryLE store arn t 1 = [latest] ∧
      latest ∈ store.filter (matchesQuery arn t) ∧
      (∀ r ∈ store.filter (matchesQuery arn t),
        timeLe (getTimeD r) (getTimeD latest)) ∧
      (process_dynamodb_record record store diff_func).2 = none ∧
      saveEffects (process_dynamodb_record record store diff_func).1 =
        (if diff_func latest data then [data] else []) := by
  obtain ⟨latest, hq, hmem, hmax⟩ := queryLE_resolves store arn t hprior
  have hproc := process_modify_eq record store diff_func arn img new data t
    hname harn himg hstrip hdata ht
  refine ⟨latest, hq, hmem, hmax, ?_, ?_⟩
  · rw [hproc]
  · rw [hproc]
    unfold modify_record
    rw [hq]
    by_cases hd : diff_func latest data
    · simp [hd, saveEffects]
    · simp [hd, saveEffects]

/-- Witness for C1: a MODIFY of the fixture resource against a store holding
one older revision; all hypotheses hold by computation. -/
theorem claim_C1_witness :
    List.filter (matchesQuery "arn:aws:ec2:sg-1" "2017-01-02") [wRev] ≠ [] ∧
    (∃ latest,
      queryLE [wRev] "arn:aws:ec2:sg-1" "2017-01-02" 1 = [latest] ∧
      latest ∈ List.filter (matchesQuery "arn:aws:ec2:sg-1" "2017-01-02") [wRev] ∧
      (∀ r ∈ List.filter (matchesQuery "arn:aws:ec2:sg-1" "2017-01-02") [wRev],
        timeLe (getTimeD r) (getTimeD latest)) ∧
      (process_dynamodb_record wModifyRecord [wRev] diffAlways).2 = none ∧
      saveEffects (process_dynamodb_record wModifyRecord [wRev] diffAlways).1 =
        (if diffAlways latest wData then [wData] else [])) := by
  have hne : List.filter (matchesQuery "arn:aws:ec2:sg-1" "2017-01-02") [wRev] ≠ [] := by
    rw [show List.filter (matchesQuery "arn:aws:ec2:sg-1" "2017-01-02") [wRev]
        = [wRev] from rfl]
    exact List.cons_ne_nil _ _
  exact ⟨hne,
    claim_C1_modify_resolves_latest_and_saves_iff_diff wModifyRecord [wRev]
      diffAlways "arn:aws:ec2:sg-1" wImage wStripped wData "2017-01-02"
      rfl rfl rfl rfl rfl rfl hne⟩

/-- C3: for every INSERT event, processing normalizes the new image, strips
the current-table-only fields, and saves it as a new durable revision exactly
once, for every store contents and every diff policy (neither is consulted). -/
theorem claim_C3_insert_always_saves_once
    (record : StreamRecord) (arn : String) (img new : Image) (data : Body)
    (hname : record.eventName = "INSERT")
    (harn : getArn record = .ok arn)
    (himg : record.dynamodb.NewImage = some img)
    (hstrip : remove_current_specific_fields img = .ok new)
    (hdata : buildData new = .ok data) :
    ∀ (store : List Body) (diff_func : Body → Body → Bool),
      process_dynamodb_record record store diff_func =
        ([.logInfo "Processing stream record...", .save data,
          .logDebug "Saving new revision to durable table."], none) ∧
      saveEffects (process_dynamodb_record record store diff_func).1 = [data] := by
  intro store diff_func
  have hproc := process_insert_eq record store diff_func arn img new data
    hname harn himg hstrip hdata
  exact ⟨hproc, by rw [hproc]; simp [saveEffects]⟩

/-- Witness for C3: the fixture INSERT against a nonempty store and a diff
policy that never reports differences still saves exactly once. -/
theorem claim_C3_witness :
    wInsertRecord.eventName = "INSERT" ∧
    (process_dynamodb_record wInsertRecord [wRev] diffNever =
      ([.logInfo "Processing stream record...", .save wData,
        .logDebug "Saving new revision to durable table."], none) ∧
     saveEffects (process_dynamodb_record wInsertRecord [wRev] diffNever).1 =
      [wData]) :=
  ⟨rfl, claim_C3_insert_always_saves_once wInsertRecord "arn:aws:ec2:sg-1"
    wImage wStripped wData rfl rfl rfl rfl rfl [wRev] diffNever⟩

/-- C4: for every MODIFY event whose resource has no durable revision with
eventTime at or before the candidate's eventTime, processing performs zero
durable writes, emits exactly one anomaly warning log, and returns no error. -/
theorem claim_C4_modify_no_prior_warns_only
    (record : StreamRecord) (store : List Body) (diff_func : Body → Body → Bool)
    (arn : String) (img new : Image) (data : Body) (t : String)
    (hname : record.eventName = "MODIFY")
    (harn : getArn record = .ok arn)
    (himg : record.dynamodb.NewImage = some img)
    (hstrip : remove_current_specific_fields img = .ok new)
    (hdata : buildData new = .ok data)
    (ht : List.lookup "eventTime" data = some (.str t))
    (hnone : store.filter (matchesQuery arn t) = []) :
    process_dynamodb_record record store diff_func =
      ([.logInfo "Processing stream record...",
        .logWarning ("Got modify event but no current revision found. Arn: " ++ arn)],
       none) ∧
    saveEffects (process_dynamodb_record record store diff_func).1 = [] ∧
    warningCount (process_dynamodb_record record store diff_func).1 = 1 := by
  have hq : queryLE store arn t 1 = [] := by
    unfold queryLE
    rw [hnone, List.mergeSort_nil]
    rfl
  have hproc := process_modify_eq record store diff_func arn img new data t
    hname harn himg hstrip hdata ht
  have hmod : modify_record store data arn t diff_func =
      [.logWarning ("Got modify event but no current revision found. Arn: " ++ arn)] := by
    unfold modify_record
    rw [hq]
  rw [hproc, hmod]
  exact ⟨rfl, rfl, rfl⟩

/-- Witness for C4: the fixture MODIFY against an empty durable store. -/
theorem claim_C4_witness :
    List.filter (matchesQuery "arn:aws:ec2:sg-1" "2017-01-02")
      ([] : List Body) = [] ∧
    (process_dynamodb_record wModifyRecord [] diffAlways =
      ([.logInfo "Processing stream record...",
        .logWarning ("Got modify event but no current revision found. Arn: "
          ++ "arn:aws:ec2:sg-1")], none) ∧
     saveEffects (process_dynamodb_record wModifyRecord [] diffAlways).1 = [] ∧
     warningCount (process_dynamodb_record wModifyRecord [] diffAlways).1 = 1) :=
  ⟨rfl, claim_C4_modify_no_prior_warns_only wModifyRecord [] diffAlways
    "arn:aws:ec2:sg-1" wImage wStripped wData "2017-01-02"
    rfl rfl rfl rfl rfl rfl rfl⟩

/-- C2: for every REMOVE event, a durable write occurs if and only if the
originator identity has type Service and principal dynamodb.amazonaws.com;
a qualifying REMOVE saves exactly one tombstone whose body is the
deserialized, ttl-stripped old image with `configuration` overwritten by the
empty map and the transported `eventTime` removed; any non-qualifying REMOVE
(including one with no originator identity) produces zero writes and no
error. -/
theorem claim_C2_remove_tombstone_only_for_ttl_service
    (record : StreamRecord) (store : List Body) (diff_func : Body → Body → Bool)
    (arn : String)
    (hname : record.eventName = "REMOVE")
    (harn : getArn record = .ok arn) :
    (∀ uid oimg old data0,
      record.userIdentity = some uid →
      uid.type = "Service" →
      uid.principalId = "dynamodb.amazonaws.com" →
      record.dynamodb.OldImage = some oimg →
      remove_current_specific_fields oimg = .ok old →
      buildDataRaw old = .ok data0 →
      (List.lookup "eventTime" data0).isSome →
      (process_dynamodb_record record store diff_func).2 = none ∧
      saveEffects (process_dynamodb_record record store diff_func).1 =
        [(setKey "configuration" (.map []) data0).filter
          (fun kv => kv.1 ≠ "eventTime")] ∧
      List.lookup "configuration"
        ((setKey "configuration" (.map []) data0).filter
          (fun kv => kv.1 ≠ "eventTime")) = some (.map []) ∧
      List.lookup "eventTime"
        ((setKey "configuration" (.map []) data0).filter
          (fun kv => kv.1 ≠ "eventTime")) = none) ∧
    ((∀ uid, record.userIdentity = some uid →
        ¬(uid.type = "Service" ∧ uid.principalId = "dynamodb.amazonaws.com")) →
      (process_dynamodb_record record store diff_func).2 = none ∧
      saveEffects (process_dynamodb_record record store diff_func).1 = []) := by
  constructor
  · intro uid oimg old data0 huid htype hpid hoimg hstrip hbuild hevt
    have hevt' : (List.lookup "eventTime"
        (setKey "configuration" (Value.map []) data0)).isSome := by
      rw [lookup_setKey_ne "eventTime" "configuration" (Value.map []) data0
        (by decide)]
      exact hevt
    have hproc := process_remove_ttl_eq record store diff_func arn uid oimg old
      data0 hname harn huid htype hpid hoimg hstrip hbuild hevt'
    refine ⟨by rw [hproc], by rw [hproc]; rfl, ?_, ?_⟩
    · rw [lookup_filter_ne "configuration" "eventTime" _ (by decide)]
      exact lookup_setKey_self "configuration" (Value.map []) data0
    · exact lookup_filter_self "eventTime" _
  · intro hnq
    have hproc := process_remove_other_eq record store diff_func arn hname harn hnq
    exact ⟨by rw [hproc], by rw [hproc]; rfl⟩

/-- Witness for C2: the qualifying TTL-service REMOVE fixture saves exactly
the tombstone body, and the same REMOVE from an ordinary user identity saves
nothing; both via the claim theorem. -/
theorem claim_C2_witness :
    ((process_dynamodb_record wRemoveRecord [] diffAlways).2 = none ∧
     saveEffects (process_dynamodb_record wRemoveRecord [] diffAlways).1 =
       [(setKey "configuration" (.map []) wRemoveData0).filter
         (fun kv => kv.1 ≠ "eventTime")] ∧
     List.lookup "configuration"
       ((setKey "configuration" (.map []) wRemoveData0).filter
         (fun kv => kv.1 ≠ "eventTime")) = some (.map []) ∧
     List.lookup "eventTime"
       ((setKey "configuration" (.map []) wRemoveData0).filter
         (fun kv => kv.1 ≠ "eventTime")) = none) ∧
    ((process_dynamodb_record wRemoveRecordUser [] diffAlways).2 = none ∧
     saveEffects (process_dynamodb_record wRemoveRecordUser [] diffAlways).1 = []) := by
  constructor
  · exact (claim_C2_remove_tombstone_only_for_ttl_service wRemoveRecord []
      diffAlways "arn:aws:ec2:sg-1" rfl rfl).1
      { type := "Service", principalId := "dynamodb.amazonaws.com" }
      wRemoveImage wRemoveOld wRemoveData0 rfl rfl rfl rfl rfl rfl rfl
  · refine (claim_C2_remove_tombstone_only_for_ttl_service wRemoveRecordUser []
      diffAlways "arn:aws:ec2:sg-1" rfl rfl).2 ?_
    intro uid h
    rw [show wRemoveRecordUser.userIdentity =
        some { type := "IAMUser", principalId := "alice" } from rfl] at h
    obtain rfl : uid = { type := "IAMUser", principalId := "alice" } :=
      (Option.some.inj h).symm
    rintro ⟨ht, -⟩
    exact absurd ht (by decide)

/-- C7: for every dict, `remove_current_specific_fields` removes exactly the
`ttl` field, leaves the lookup of every other key unchanged, and fails with
the missing-field error exactly when `ttl` is absent. -/
theorem claim_C7_strip_removes_exactly_ttl {α : Type} (m : List (String × α)) :
    ((List.lookup "ttl" m).isSome →
      ∃ m', remove_current_specific_fields m = .ok m' ∧
        List.lookup "ttl" m' = none ∧
        (∀ k, k ≠ "ttl" → List.lookup k m' = List.lookup k m)) ∧
    (remove_current_specific_fields m = .error .keyError ↔
      List.lookup "ttl" m = none) := by
  constructor
  · intro hsome
    refine ⟨m.filter (fun kv => kv.1 ≠ "ttl"), ?_,
      lookup_filter_self "ttl" m, fun k hk => lookup_filter_ne k "ttl" m hk⟩
    unfold remove_current_specific_fields
    rw [if_pos hsome]
  · unfold remove_current_specific_fields
    by_cases hsome : (List.lookup "ttl" m).isSome
    · rw [if_pos hsome]
      constructor
      · intro h
        exact absurd h (by simp)
      · intro h
        rw [h] at hsome
        simp at hsome
    · rw [if_neg hsome]
      simp only [Option.isSome] at hsome
      constructor
      · intro _
        cases h : List.lookup "ttl" m
        · rfl
        · rw [h] at hsome
          simp at hsome
      · intro _
        rfl

/-- Witness for C7: a dict with `ttl` loses exactly that field; a dict
without `ttl` fails with the missing-field error. -/
theorem claim_C7_witness :
    (List.lookup "ttl" [("ttl", 1), ("a", (2 : Nat))]).isSome = true ∧
    (∃ m', remove_current_specific_fields [("ttl", 1), ("a", (2 : Nat))] = .ok m' ∧
      List.lookup "ttl" m' = none ∧
      (∀ k, k ≠ "ttl" →
        List.lookup k m' = List.lookup k [("ttl", 1), ("a", (2 : Nat))])) ∧
    (remove_current_specific_fields [("a", (2 : Nat))] = .error .keyError ↔
      List.lookup "ttl" [("a", (2 : Nat))] = none) :=
  ⟨rfl,
   (claim_C7_strip_removes_exactly_ttl [("ttl", 1), ("a", (2 : Nat))]).1 rfl,
   (claim_C7_strip_removes_exactly_ttl [("a", (2 : Nat))]).2⟩

/-- C8: whenever processing of an event ends with an error (decode failure
or missing expected field), zero durable writes were performed for that
event -- the error path is free of partial writes. -/
theorem claim_C8_error_aborts_without_writes
    (record : StreamRecord) (store : List Body) (diff_func : Body → Body → Bool)
    (e : Err)
    (herr : (process_dynamodb_record record store diff_func).2 = some e) :
    saveEffects (process_dynamodb_record record store diff_func).1 = [] := by
  rcases process_error_effects record store diff_func with h | h
  · rw [herr] at h
    simp at h
  · rw [h]
    rfl

/-- Witness for C8: the INSERT fixture whose image is missing `ttl` errors
with a KeyError and saves nothing. -/
theorem claim_C8_witness :
    (process_dynamodb_record wNoTtlRecord [] diffAlways).2 = some Err.keyError ∧
    saveEffects (process_dynamodb_record wNoTtlRecord [] diffAlways).1 = [] :=
  ⟨rfl, claim_C8_error_aborts_without_writes wNoTtlRecord [] diffAlways
    Err.keyError rfl⟩

/-- C10: a record whose event name is none of INSERT / MODIFY / REMOVE is
silently ignored -- zero writes, no error -- provided the `dynamodb.Keys.arn.S`
key is readable; that key is read unconditionally before the event-kind
dispatch, so its absence is an error for every event name. -/
theorem claim_C10_unknown_event_ignored
    (record : StreamRecord) (store : List Body) (diff_func : Body → Body → Bool)
    (h1 : record.eventName ≠ "INSERT")
    (h2 : record.eventName ≠ "MODIFY")
    (h3 : record.eventName ≠ "REMOVE") :
    (∀ arn, getArn record = .ok arn →
      process_dynamodb_record record store diff_func =
        ([.logInfo "Processing stream record..."], none) ∧
      saveEffects (process_dynamodb_record record store diff_func).1 = [] ∧
      (process_dynamodb_record record store diff_func).2 = none) ∧
    (∀ e, getArn record = .error e →
      (process_dynamodb_record record store diff_func).2 = some e) := by
  constructor
  · intro arn harn
    have hproc := process_unknown_eq record store diff_func arn h1 h2 h3 harn
    exact ⟨hproc, by rw [hproc]; rfl, by rw [hproc]⟩
  · intro e harn
    rw [process_no_arn_eq record store diff_func e harn]

/-- Witness for C10: the UNKNOWN-event fixture with the arn key is ignored;
the same fixture without the arn key errors before the dispatch. -/
theorem claim_C10_witness :
    (process_dynamodb_record wUnknownRecord [wRev] diffAlways =
      ([.logInfo "Processing stream record..."], none) ∧
     saveEffects (process_dynamodb_record wUnknownRecord [wRev] diffAlways).1 = [] ∧
     (process_dynamodb_record wUnknownRecord [wRev] diffAlways).2 = none) ∧
    (process_dynamodb_record wUnknownRecordNoArn [wRev] diffAlways).2 =
      some Err.keyError :=
  ⟨(claim_C10_unknown_event_ignored wUnknownRecord [wRev] diffAlways
      (by decide) (by decide) (by decide)).1 "arn:aws:ec2:sg-1" rfl,
   (claim_C10_unknown_event_ignored wUnknownRecordNoArn [wRev] diffAlways
      (by decide) (by decide) (by decide)).2 Err.keyError rfl⟩

/-- C6: `replace_decimals` narrows a decimal with zero fractional part to an
integer (decimal 5 becomes integer 5) and any other decimal to a floating
value (decimal 5.5 becomes floating 5.5), descends recursively through lists
and maps, and leaves every non-numeric leaf unchanged. -/
theorem claim_C6_numeric_narrowing :
    replace_decimals (.decimal 5) = .int 5 ∧
    replace_decimals (.decimal (11 / 2 : Rat)) = .float (11 / 2 : Rat) ∧
    (∀ q : Rat, q.den = 1 → replace_decimals (.decimal q) = .int q.num) ∧
    (∀ q : Rat, q.den ≠ 1 → replace_decimals (.decimal q) = .float q) ∧
    (∀ xs, replace_decimals (.list xs) = .list (replace_decimalsList xs)) ∧
    (∀ v vs, replace_decimalsList (v :: vs) =
      replace_decimals v :: replace_decimalsList vs) ∧
    (∀ m, replace_decimals (.map m) = .map (replace_decimalsMap m)) ∧
    (∀ k v kvs, replace_decimalsMap ((k, v) :: kvs) =
      (k, replace_decimals v) :: replace_decimalsMap kvs) ∧
    replace_decimals .null = .null ∧
    (∀ b, replace_decimals (.bool b) = .bool b) ∧
    (∀ s, replace_decimals (.str s) = .str s) ∧
    (∀ bs, replace_decimals (.binary bs) = .binary bs) ∧
    (∀ xs, replace_decimals (.strSet xs) = .strSet xs) ∧
    (∀ xs, replace_decimals (.numSet xs) = .numSet xs) ∧
    (∀ xs, replace_decimals (.binSet xs) = .binSet xs) ∧
    (∀ n, replace_decimals (.int n) = .int n) ∧
    (∀ q, replace_decimals (.float q) = .float q) := by
  have hint : ∀ q : Rat, q.den = 1 → replace_decimals (.decimal q) = .int q.num := by
    intro q h
    unfold replace_decimals
    rw [if_pos h]
  have hfloat : ∀ q : Rat, q.den ≠ 1 → replace_decimals (.decimal q) = .float q := by
    intro q h
    unfold replace_decimals
    rw [if_neg h]
  refine ⟨?_, hfloat _ (by norm_num), hint, hfloat, fun xs => rfl,
    fun v vs => rfl, fun m => rfl, fun k v kvs => rfl, rfl, fun b => rfl,
    fun s => rfl, fun bs => rfl, fun xs => rfl, fun xs => rfl, fun xs => rfl,
    fun n => rfl, fun q => rfl⟩
  rw [hint 5 (by norm_num)]
  norm_num

/-- Witness for C6: the narrowing applied at the concrete decimals 5
(integral) and 7/2 (fractional) through the claim theorem. -/
theorem claim_C6_witness :
    ((5 : Rat).den = 1 ∧ replace_decimals (.decimal 5) = .int (5 : Rat).num) ∧
    ((7 / 2 : Rat).den ≠ 1 ∧
      replace_decimals (.decimal (7 / 2 : Rat)) = .float (7 / 2 : Rat)) :=
  ⟨⟨by norm_num, claim_C6_numeric_narrowing.2.2.1 5 (by norm_num)⟩,
   ⟨by norm_num, claim_C6_numeric_narrowing.2.2.2.1 (7 / 2 : Rat) (by norm_num)⟩⟩

/-- C9: both normalization passes are idempotent:
`replace_decimals (replace_decimals x) = replace_decimals x` and
`replace_nones (replace_nones x) = replace_nones x` for every value tree. -/
theorem claim_C9_normalization_idempotent (v : Value) :
    replace_decimals (replace_decimals v) = replace_decimals v ∧
    replace_nones (replace_nones v) = replace_nones v :=
  ⟨replace_decimals_idem v, replace_nones_idem v⟩

/-- C5 counterexample: processing the INSERT fixture whose image carries a
NULL-tagged field saves a body in which that field is still the raw null
sentinel -- the pipeline never applies the null-to-empty-object
substitution, refuting the claim that no processed field holds a raw null. -/
theorem claim_C5_counterexample :
    saveEffects (process_dynamodb_record wNullRecord [] diffAlways).1 =
      [[("arn", Value.str "arn:aws:ec2:sg-1"), ("nested", Value.null)]] ∧
    List.lookup "nested"
      [("arn", Value.str "arn:aws:ec2:sg-1"), ("nested", Value.null)] =
      some Value.null ∧
    noNulls (Value.map
      [("arn", Value.str "arn:aws:ec2:sg-1"), ("nested", Value.null)]) = false :=
  ⟨rfl, rfl, rfl⟩

/-- C5 (amended): `replace_nones` itself performs the specified
substitution -- a null field becomes an empty object and its output contains
no raw null anywhere -- while the processing pipeline decodes a NULL tag to
null and applies only `replace_decimals`, which leaves null unchanged; so
the substitution holds for `replace_nones` but not for processed events. -/
theorem claim_C5_replace_nones_eliminates_nulls :
    replace_nones (.map [("a", .null)]) = .map [("a", .map [])] ∧
    (∀ v : Value, noNulls (replace_nones v) = true) ∧
    deserialize .NULL = .ok .null ∧
    replace_decimals .null = .null :=
  ⟨rfl, noNulls_replace_nones, rfl, rfl⟩
